import Mathlib

/- Verification development for the iran-monitor scan script
   (scripts/scan.py): a shallow embedding of its stateful
   context-assembly and source-reliability logic, with theorems about
   the properties stated in the specification.

   Python strings are embedded as `List Char` (Python indexes and
   slices strings by code point, exactly as `List Char` does). -/

namespace IranMonitor

/-- Code points of a string literal, for writing embedded Python string
constants compactly. -/
def s (x : String) : List Char := x.data

/-- Models Python `str.lower()` applied code-point-wise. Only ASCII
letters are folded; every pattern and marker string in the script is
either ASCII or Hebrew/Arabic (which `str.lower()` leaves unchanged). -/
def pyLower (l : List Char) : List Char := l.map Char.toLower

/-- Models Python's whitespace class (`str.strip()` and the regex
escape for whitespace): ASCII whitespace plus the Unicode space
code points recognised by CPython. -/
def isPySpace (c : Char) : Bool :=
  c = ' ' || c = '\t' || c = '\n' || c = '\x0d' || c = '\x0b' || c = '\x0c' ||
  (0x1c ≤ c.toNat && c.toNat ≤ 0x1f) || c.toNat = 0x85 || c.toNat = 0xa0 ||
  c.toNat = 0x1680 || (0x2000 ≤ c.toNat && c.toNat ≤ 0x200a) ||
  c.toNat = 0x2028 || c.toNat = 0x2029 || c.toNat = 0x202f ||
  c.toNat = 0x205f || c.toNat = 0x3000

/-- Models Python `str.strip()`: drop leading and trailing whitespace. -/
def pyStrip (l : List Char) : List Char :=
  ((l.dropWhile isPySpace).reverse.dropWhile isPySpace).reverse

/-- True when `p` is a leading prefix of `l` (helper for the substring
tests below). -/
def startsWith : List Char → List Char → Bool
  | _, [] => true
  | [], _ :: _ => false
  | c :: cs, d :: ds => c = d && startsWith cs ds

/-- Models Python's `needle in hay` substring test. -/
def containsSub (hay needle : List Char) : Bool :=
  match hay with
  | [] => startsWith [] needle
  | _ :: t => startsWith hay needle || containsSub t needle

/-- Auxiliary scanner for `findSub`, carrying the current index. -/
def findSubAux (needle : List Char) : List Char → Nat → Option Nat
  | [], i => if startsWith [] needle then some i else none
  | c :: t, i =>
    if startsWith (c :: t) needle then some i else findSubAux needle t (i + 1)

/-- Models Python `hay.find(needle)`: index of the leftmost occurrence,
`none` standing for Python's -1. -/
def findSub (hay needle : List Char) : Option Nat := findSubAux needle hay 0

-- ============================================
-- SOURCE TRACKING (scan.py lines 147-203)
-- ============================================

/-- Reliability state for one named source, the value type of the
`sources` mapping: `{"score": ..., "mentions": ...}`. Both keys are
always present on every profile the script creates. -/
structure Profile where
  score : Int
  mentions : Int
deriving DecidableEq, Repr

/-- The `sources` mapping, embedded as an insertion-ordered association
list, exactly the iteration semantics of a Python dict. -/
abbrev Sources := List (String × Profile)

/-- Models `name in sources` / `sources[name]` lookup. -/
def getSrc : Sources → String → Option Profile
  | [], _ => none
  | (k, v) :: r, k' => if k = k' then some v else getSrc r k'

/-- Models `sources[name] = v`: update in place keeping the key's
position, or append a fresh key at the end (Python dict semantics). -/
def setKey : Sources → String → Profile → Sources
  | [], k, v => [(k, v)]
  | (k', v') :: r, k, v =>
    if k' = k then (k, v) :: r else (k', v') :: setKey r k v

/-- Reads `sources[name]` where the script guarantees presence; the
default mirrors the per-field defaults `get("score", 50)` /
`get("mentions", 0)`. -/
def getProfD (m : Sources) (k : String) : Profile :=
  (getSrc m k).getD ⟨50, 0⟩

/-- Markers of the confirmed tier (scan.py line 195). -/
def confirmedMarkers : List (List Char) :=
  [s "✅", s "אמינות גבוהה", s "מאומת"]

/-- Markers of the rumor tier (scan.py line 197). -/
def rumorMarkers : List (List Char) :=
  [s "❓", s "אמינות נמוכה", s "לא מאומת", s "שמועה"]

/-- Markers of the single-source tier (scan.py line 199). -/
def singleSourceMarkers : List (List Char) :=
  [s "⚠️", s "מקור בודד", s "לא מאושר"]

/-- The three sequential clamped score writes of scan.py lines 195-200,
applied to the score read just before them: +3 clamped at 100 when a
confirmed-tier marker is in the window, then -3 clamped at 0 for the
rumor tier, then -1 clamped at 0 for the single-source tier. -/
def adjustScore (window : List Char) (sc : Int) : Int :=
  let s1 := if confirmedMarkers.any (fun m => containsSub window m) then
    min 100 (sc + 3) else sc
  let s2 := if rumorMarkers.any (fun m => containsSub window m) then
    max 0 (s1 - 3) else s1
  let s3 := if singleSourceMarkers.any (fun m => containsSub window m) then
    max 0 (s2 - 1) else s2
  s3

/-- The SOURCE_PATTERNS registry of scan.py lines 147-180, in its
source order (Python dicts iterate in insertion order). -/
def SOURCE_PATTERNS : List (String × List (List Char)) :=
  [("ISW", [s "ISW", s "Institute for the Study of War"]),
   ("Jane's", [s "Jane's", s "Janes"]),
   ("IRNA", [s "IRNA"]),
   ("Fars News", [s "Fars News"]),
   ("Tasnim", [s "Tasnim"]),
   ("Press TV", [s "Press TV"]),
   ("Al Arabiya", [s "Al Arabiya"]),
   ("Al Jazeera", [s "Al Jazeera"]),
   ("Reuters", [s "Reuters"]),
   ("AP", [s "Associated Press", s " AP "]),
   ("Epoch Times", [s "Epoch Times"]),
   ("Times of Israel", [s "Times of Israel"]),
   ("Jerusalem Post", [s "Jerusalem Post"]),
   ("i24news", [s "i24", s "i24news", s "i24NEWS"]),
   ("Walla", [s "Walla", s "וואלה"]),
   ("Kan News", [s "כאן חדשות", s "Kan News", s "כאן 11"]),
   ("Channel 13", [s "חדשות 13", s "Channel 13"]),
   ("OSINT Analysts", [s "OSINT", s "osint"]),
   ("Telegram", [s "טלגרם", s "Telegram", s "telegram"]),
   ("X/Twitter", [s "Twitter", s "X.com"]),
   ("BBC", [s "BBC"]),
   ("CNN", [s "CNN"]),
   ("Aurora Intel", [s "Aurora Intel"]),
   ("OSINTdefender", [s "OSINTdefender"]),
   ("Al Hadath", [s "Al Hadath", s "الحدث"]),
   ("Sky News Arabia", [s "Sky News Arabia"]),
   ("Asharq Al-Awsat", [s "Asharq Al-Awsat", s "الشرق الأوسط"]),
   ("TRT World", [s "TRT World", s "TRT"]),
   ("Anadolu Agency", [s "Anadolu", s "AA"]),
   ("The National (UAE)", [s "The National"]),
   ("Gulf News", [s "Gulf News"]),
   ("Arab News", [s "Arab News"])]

/-- Models scan.py lines 186-187: lazily create the profile
`{"score": 50, "mentions": 0}` when the name is absent. -/
def ensureProfile (m : Sources) (name : String) : Sources :=
  if (getSrc m name).isSome then m else setKey m name ⟨50, 0⟩

/-- Models scan.py line 188: increment the mention counter by 1,
leaving the score untouched. -/
def bumpMention (m : Sources) (name : String) : Sources :=
  setKey m name ⟨(getProfD m name).score, (getProfD m name).mentions + 1⟩

/-- Models scan.py lines 191-200: when the alias was located
(`idx >= 0`), adjust the profile's score from the marker window
`content[max(0, idx-50) : idx + len(pattern) + 100]` (code-point
slicing; Nat subtraction is exactly the `max(0, ...)` clamp). -/
def applyMarkers (content p : List Char) (idxOpt : Option Nat)
    (m : Sources) (name : String) : Sources :=
  match idxOpt with
  | some idx =>
    let window := (content.drop (idx - 50)).take
      (idx + p.length + 100 - (idx - 50))
    setKey m name
      ⟨adjustScore window (getProfD m name).score, (getProfD m name).mentions⟩
  | none => m

/-- The inner loop of `update_sources` for one registered source
(scan.py lines 184-201): try aliases in order; on the first
case-insensitive substring match, lazily create the profile, increment
`mentions` once, adjust the score from the marker window around the
first occurrence, and stop (`break`). -/
def processSource (content contentLower : List Char) (m : Sources)
    (name : String) : List (List Char) → Sources
  | [] => m
  | p :: ps =>
    if containsSub contentLower (pyLower p) then
      applyMarkers content p (findSub contentLower (pyLower p))
        (bumpMention (ensureProfile m name) name) name
    else processSource content contentLower m name ps

/-- Models `update_sources(content, sources)` (scan.py lines 182-203):
fold the per-source processing over the registry in its order. -/
def update_sources (content : List Char) (srcs : Sources) : Sources :=
  SOURCE_PATTERNS.foldl
    (fun acc np => processSource content (pyLower content) acc np.1 np.2) srcs

/-- The mention count the `sources` mapping records for a name, 0 when
the profile does not exist yet. -/
def mentionsOf (m : Sources) (k : String) : Int :=
  match getSrc m k with
  | some p => p.mentions
  | none => 0

/-- The score invariant of the specification: every stored profile's
score lies in [0, 100]. -/
def ScoreInv (m : Sources) : Prop :=
  ∀ q ∈ m, 0 ≤ q.2.score ∧ q.2.score ≤ 100

-- ============================================
-- HISTORY RETENTION (scan.py lines 304-311)
-- ============================================

/-- Models the retention step of `run_scan`: prepend the new record
(`history.insert(0, scan)`); when more than 3 records result, keep the
newest plus `rest[0]` and `rest[min(step, len(rest)-1)]` where
`rest = history[1:]` and `step = max(1, len(rest) // 2)`. The `getD`
defaults are never used: in the sampling branch `rest` has at least
3 elements. -/
def retainHistory {α : Type} (scan : α) (history : List α) : List α :=
  let h := scan :: history
  if h.length > 3 then
    let rest := history
    let step := max 1 (rest.length / 2)
    scan :: [rest.getD 0 scan, rest.getD (min step (rest.length - 1)) scan]
  else h

-- ============================================
-- PREAMBLE STRIP (scan.py lines 277-284)
-- ============================================

/-- Whether the section-start marker (three hash marks followed by a
whitespace character) stands at the head of `l`. -/
def markerAt (l : List Char) : Bool :=
  match l with
  | '#' :: '#' :: '#' :: c :: _ => isPySpace c
  | _ => false

/-- Whether the regex for a section start (the marker anchored at a
line start in MULTILINE mode) matches `l` at position `i`. -/
def sectionAt (l : List Char) (i : Nat) : Bool :=
  (decide (i = 0) || (l.get? (i - 1) == some '\n')) && markerAt (l.drop i)

/-- Models `re.search` for the section-start regex: the position of its
leftmost match, if any. -/
def firstSection (l : List Char) : Option Nat :=
  (List.range l.length).find? (sectionAt l)

/-- Models scan.py lines 279-284: when a section start exists at a
positive position, discard everything before it (the `stripped`
variable there only feeds a log line and never affects the result). -/
def stripPreamble (content : List Char) : List Char :=
  match firstSection content with
  | some p => if p > 0 then content.drop p else content
  | none => content

-- ============================================
-- SCAN RECORDS AND SUMMARY (scan.py lines 292-298)
-- ============================================

/-- Models the summary expression of scan.py line 296: the first 150
code points of `content`, with every hash mark removed, every asterisk
removed, newlines replaced by spaces, then whitespace-stripped. -/
def mkSummary (content : List Char) : List Char :=
  pyStrip ((((content.take 150).filter (fun c => !(c == '#'))).filter
    (fun c => !(c == '*'))).map (fun c => if c = '\n' then ' ' else c))

/-- The MODEL constant of scan.py line 22. -/
def MODEL : List Char := s "claude-opus-4-6"

/-- One produced briefing, the `scan` dict of scan.py lines 292-298. -/
structure ScanRecord where
  timestamp : Int
  time_str : List Char
  content : List Char
  summary : List Char
  model : List Char
deriving DecidableEq, Repr

/-- Models the construction of the `scan` dict from its inputs. -/
def mkScan (timestamp : Int) (time_str content : List Char) : ScanRecord :=
  { timestamp := timestamp, time_str := time_str, content := content,
    summary := mkSummary content, model := MODEL }

-- ============================================
-- PROMPT ASSEMBLY (scan.py lines 46-142)
-- ============================================

/-- An entry of user_intel.json; the script writes all three keys
(scan.py lines 223-227), so the `get` defaults never fire. -/
structure IntelItem where
  text : List Char
  priority : List Char
  time : List Char
deriving DecidableEq, Repr

/-- An entry of feedback.json, read with `get` defaults for `text` and
`time`; both keys are modelled as present. -/
structure FeedbackItem where
  text : List Char
  time : List Char
deriving DecidableEq, Repr

/-- Models the `prev_context` block (scan.py lines 51-56): empty for an
empty history, otherwise a header with the newest record's `time_str`
and its content truncated to 1500 code points. -/
def prev_context (history : List ScanRecord) : List Char :=
  match history with
  | [] => []
  | last :: _ =>
    s "--- סקירה קודמת (" ++ last.time_str ++ s ") ---\n" ++
    last.content.take 1500 ++ s "\n"

/-- One rendered line of the user-intel block (scan.py line 63). -/
def intelLine (it : IntelItem) : List Char :=
  s "- [" ++ it.priority ++ s "] " ++ it.text ++ s " (" ++ it.time ++ s ")\n"

/-- Models the `intel_block` (scan.py lines 59-63): empty for an empty
list, otherwise a header plus one line per stored item in order. -/
def intel_block (user_intel : List IntelItem) : List Char :=
  match user_intel with
  | [] => []
  | _ :: _ =>
    s "\n\n## מידע ממקור ישיר (עדיפות עליונה - המשתמש הזין את זה):\n" ++
    (user_intel.map intelLine).flatten

/-- One rendered line of the feedback block (scan.py line 71). -/
def fbLine (fb : FeedbackItem) : List Char :=
  s "- " ++ fb.text ++ s " (" ++ fb.time ++ s ")\n"

/-- Models the `fb_block` (scan.py lines 66-71): empty for an empty
list, otherwise a header plus one line per item of the trailing window
`feedback[-10:]`. -/
def fb_block (feedback : List FeedbackItem) : List Char :=
  match feedback with
  | [] => []
  | _ :: _ =>
    s "\n\n## משוב מהמשתמש - למד מזה:\n" ++
    ((feedback.drop (feedback.length - 10)).map fbLine).flatten

/-- Sort key of the source-reliability listing (scan.py line 77):
the profile's score (`get("score", 50)`; the key is always present on
profiles the script writes). -/
def scoreKey (p : String × Profile) : Int := p.2.score

/-- Insertion step of the stable descending sort: the new element `a`
goes after exactly those earlier-sorted elements with a strictly
greater key, so equal keys keep their original order. -/
def insDesc (a : String × Profile) :
    List (String × Profile) → List (String × Profile)
  | [] => [a]
  | b :: bs => if scoreKey a < scoreKey b then b :: insDesc a bs
    else a :: b :: bs

/-- Models Python `sorted(sources.items(), key=score, reverse=True)`
(scan.py line 77): Python's sort is stable and `reverse=True` keeps
equal-key elements in their original order, which is exactly the
reordering this stable insertion sort produces. -/
def sortSources : List (String × Profile) → List (String × Profile)
  | [] => []
  | x :: xs => insDesc x (sortSources xs)

/-- One rendered line of the source-reliability block (scan.py
line 78), showing the score and the mention count. -/
def srcLine (nm : String) (p : Profile) : List Char :=
  s "- " ++ nm.data ++ s ": ציון " ++ (toString p.score).data ++
  s "/100 (אזכורים: " ++ (toString p.mentions).data ++ s ")\n"

/-- Models the `src_block` (scan.py lines 74-78): empty for an empty
mapping, otherwise a header plus one line per profile in stable
score-descending order. -/
def src_block (sources : Sources) : List Char :=
  match sources with
  | [] => []
  | _ :: _ =>
    s "\n\n## היסטוריית אמינות מקורות:\n" ++
    ((sortSources sources).map (fun kp => srcLine kp.1 kp.2)).flatten

/-- The instructional template of scan.py lines 80-82 up to the
`{time_str}` interpolation slot. -/
def TEMPLATE_HEAD : List Char :=
  s "אתה עורך מודיעין בכיר. תדריך מבצעי חד, עובדתי ומלא.\n\nהזמן: "

/-- The instructional template of scan.py lines 82-133, from the
`{time_str}` slot up to the `{intel_block}` slot. -/
def TEMPLATE_BODY : List Char := s " (ישראל)

## עקרונות:
1. אנליסט, לא עיתונאי. שורה תחתונה + עובדות מרכזיות.
2. טקסט רציף, מקורות בתוך הטקסט. סמן: ✅ מאומת | ⚠️ מקור בודד | ❓ שמועה.
3. לא ציטוטים אלא אם משנים תמונה. לא טריוויאליה (בתי חולים, PR, עיריות).
4. *** קיצור = מפתח. אמור את אותו דבר בפחות מילים. שלב מידע קשור יחד. ***

## *** כלל קריטי - פורמט: ***
- המילה הראשונה = \"###\". אסור הקדמות/באנרים/הערות לפני הכותרת הראשונה.
- *** כל 6 הסעיפים חייבים להופיע מלאים. סעיף שנקטע = כישלון. ***
- *** אם אתה מרגיש שנגמר המקום - קצר סעיפים קודמים, לעולם לא את התרחישים. ***

## מבנה חובה + תקציב (משפטים):

### 🔴 מצב מבצעי נוכחי
4-5 משפטים: מתי התחיל, מי-מה-באילו אמצעים, סדר גודל, נפגעים כלליים.

### 🔥 אירועים חמים
דגש על חדש *עכשיו*. 3 פסקאות קצרות (2-3 משפטים כל אחת):
- גל תקיפות אחרון / שיגורים חדשים
- חיסולים + סטטוס חמינאי (תמצית - לא כל שמועה)
- מצר הורמוז / חות'ים / אזורי (תמצית)
בסוף - חובה:
**תגובת העולם:** 2-4 משפטים בולטים על תגובות בינלאומיות (מעצמות, מדינות ערב, או\"ם). אם אין חדש: \"ללא התפתחות בינלאומית חדשה.\"

### 🇮🇱 המצב בישראל
2 פסקאות (2-3 משפטים כל אחת): אזעקות, יירוטים, נפגעים (מספרים+מיקום+חומרה), הנחיות, מרחב אווירי.
*** שמור נפגעים מסקירה קודמת + הוסף חדשים. ***

### 📊 תרחיש - שעה קרובה
*** חובה מלא - לא לקצר. *** 1-2 פסקאות: מה צפוי עכשיו, מאיפה, נקודות שבר.

### 📈 תרחיש - התפתחות המלחמה
*** חובה מלא - לא לקצר. זה הסעיף הכי חשוב ביחד עם שעה קרובה. *** 2 פסקאות: לאן המלחמה הולכת (ימים-שבועות). הסלמה, מכפילי לחץ, תחזיות.

### מקורות עיקריים
שורה אחת: 3-5 מקורות.

## חלוקת מקום (בקירוב):
מצב מבצעי ~8% | אירועים חמים ~27% | ישראל ~17% | שעה קרובה ~17% | התפתחות ~25% | מקורות ~3%
*** התרחישים ביחד = 42%. חרוג בסעיפים קודמים → קצר אותם, לא את התרחישים. ***

## למידה:
- אל תאבד מידע מסקירה קודמת (נפגעים, חיסולים). הוסף עליו, אל תחזור על כולו.

## מקורות: Epoch Times, ISW, Jane's, OSINT, Times of Israel, Jerusalem Post, Al Arabiya, Reuters, AP, i24news
## מקורות מזה\"ת (חפש פעיל): Al Arabiya, Al Hadath, Sky News Arabia, TRT World, Anadolu, The National (UAE), Gulf News, Arab News. עובדות בלבד - הטיה מובנית.
## להיזהר: BBC (אנטי-ישראלי), Al Jazeera (מוטה), CNN (שטחי) - ציין הטיה
## מקורות פרסיים = מדיה ממלכתית
## *** לא Ynet. לא N12/חדשות 12/Channel 12. ***
## חפש בכל השפות: אנגלית, ערבית, פרסית, עברית, תורכית
"

/-- The system prompt before the conditional prior-scan appendix: the
f-string of scan.py lines 80-137 with its four interpolation slots
filled (`time_str`, then the three optional blocks separated by the
template's newlines). -/
def base_prompt (time_str : List Char) (sources : Sources)
    (user_intel : List IntelItem) (feedback : List FeedbackItem) :
    List Char :=
  TEMPLATE_HEAD ++ time_str ++ TEMPLATE_BODY ++
  intel_block user_intel ++ s "\n" ++ fb_block feedback ++ s "\n" ++
  src_block sources ++ s "\n"

/-- Models `build_system_prompt` (scan.py lines 46-142). The wall-clock
timestamp string the Python computes from `datetime.now` is passed in
as `time_str` (it is display-only). The prior-scan appendix of lines
139-140 is appended only when `prev_context` is non-empty. -/
def build_system_prompt (time_str : List Char) (history : List ScanRecord)
    (sources : Sources) (user_intel : List IntelItem)
    (feedback : List FeedbackItem) : List Char :=
  let pc := prev_context history
  if pc = [] then base_prompt time_str sources user_intel feedback
  else
    base_prompt time_str sources user_intel feedback ++
    s "\n## סקירות קודמות (להקשר והשוואה):\n" ++ pc

-- ============================================
-- CYCLE ORCHESTRATOR (scan.py lines 208-323)
-- ============================================

/-- The five persisted JSON documents, as loaded at the start of a
cycle and as written back during it. -/
structure Store where
  latest : Option ScanRecord
  history : List ScanRecord
  sources : Sources
  user_intel : List IntelItem
  feedback : List FeedbackItem
deriving Repr

/-- One fragment of the generation collaborator's reply
(`response.content`): only text fragments carry usable content. -/
inductive RespBlock where
  | text (t : List Char)
  | other
deriving DecidableEq, Repr

/-- Models the extraction loop of scan.py lines 268-271: concatenate
the text fragments of the reply, ignoring every other fragment. -/
def extractContent (blocks : List RespBlock) : List Char :=
  blocks.foldl (fun acc b => match b with
    | .text t => acc ++ t
    | .other => acc) []

/-- The ad-hoc intel item appended by scan.py lines 223-227. -/
def mkIntel (text time : List Char) : IntelItem :=
  { text := text, priority := s "high", time := time }

/-- Models `run_scan` (scan.py lines 208-323) as a state-passing
function. External effects are parameters: `apiKey` is the
ANTHROPIC_API_KEY environment value, `intelTime`/`scanTime`/`timestamp`
are the wall-clock readings, and `respBlocks` is the generation
collaborator's reply (the retry loop around the API call touches no
state). Each `save_json` becomes a Store field update at its point in
the control flow, so the Store returned with an `Except.error exitCode`
is exactly what is on disk when `sys.exit` runs. -/
def run_scan (apiKey : List Char) (extraIntel : Option (List Char))
    (intelTime scanTime : List Char) (timestamp : Int)
    (respBlocks : List RespBlock) (store : Store) :
    Except Nat ScanRecord × Store :=
  if pyStrip apiKey = [] then (Except.error 1, store)
  else
    let store1 := match extraIntel with
      | some t =>
        { store with user_intel := store.user_intel ++ [mkIntel t intelTime] }
      | none => store
    let content := extractContent respBlocks
    if content = [] then (Except.error 1, store1)
    else
      let content1 := stripPreamble content
      let scan := mkScan timestamp scanTime content1
      let store2 := { store1 with latest := some scan }
      let store3 := { store2 with history := retainHistory scan store2.history }
      let store4 := { store3 with sources := update_sources content1 store3.sources }
      (Except.ok scan, store4)

-- ============================================
-- SUBSTRING LEMMAS
-- ============================================

theorem startsWith_iff (p : List Char) :
    ∀ l, startsWith l p = true ↔ ∃ t, l = p ++ t := by
  induction p with
  | nil => intro l; simp [startsWith]
  | cons d ds ih =>
    intro l
    cases l with
    | nil => simp [startsWith]
    | cons c cs =>
      simp only [startsWith, Bool.and_eq_true, decide_eq_true_eq, ih,
        List.cons_append]
      constructor
      · rintro ⟨rfl, t, rfl⟩; exact ⟨t, rfl⟩
      · rintro ⟨t, ht⟩
        injection ht with h1 h2
        exact ⟨h1, t, h2⟩

theorem containsSub_iff (hay needle : List Char) :
    containsSub hay needle = true ↔ ∃ a b, hay = a ++ (needle ++ b) := by
  induction hay with
  | nil =>
    simp only [containsSub, startsWith_iff]
    constructor
    · rintro ⟨t, ht⟩; exact ⟨[], t, ht⟩
    · rintro ⟨a, b, h⟩
      rcases List.append_eq_nil.mp h.symm with ⟨rfl, h2⟩
      exact ⟨b, by simpa using h2.symm⟩
  | cons c t ih =>
    simp only [containsSub, Bool.or_eq_true, startsWith_iff, ih]
    constructor
    · rintro (⟨u, hu⟩ | ⟨a, b, hab⟩)
      · exact ⟨[], u, by simpa using hu⟩
      · exact ⟨c :: a, b, by simp [hab]⟩
    · rintro ⟨a, b, h⟩
      cases a with
      | nil => exact Or.inl ⟨b, by simpa using h⟩
      | cons x xs =>
        injection h with h1 h2
        exact Or.inr ⟨xs, b, h2⟩

theorem containsSub_append_right (w x y : List Char)
    (h : containsSub w (x ++ y) = true) : containsSub w y = true := by
  rcases (containsSub_iff w (x ++ y)).mp h with ⟨a, b, rfl⟩
  exact (containsSub_iff _ y).mpr ⟨a ++ x, b, by simp⟩

-- ============================================
-- PREAMBLE-STRIP LEMMAS
-- ============================================

theorem markerAt_ne_nil {l : List Char} (h : markerAt l = true) : l ≠ [] := by
  intro hnil
  subst hnil
  simp [markerAt] at h

theorem sectionAt_drop {l : List Char} {i : Nat} (h : sectionAt l i = true) :
    sectionAt (l.drop i) 0 = true := by
  unfold sectionAt at h ⊢
  rw [Bool.and_eq_true] at h
  simp [h.2, List.drop_zero]

theorem find?_range_zero {n : Nat} {f : Nat → Bool} (hn : 0 < n)
    (hf : f 0 = true) : (List.range n).find? f = some 0 := by
  obtain ⟨m, rfl⟩ : ∃ m, n = m + 1 := ⟨n - 1, by omega⟩
  rw [List.range_succ_eq_map]
  exact List.find?_cons_of_pos _ hf

theorem firstSection_of_marker {c : List Char} (h : sectionAt c 0 = true) :
    firstSection c = some 0 := by
  have hm : markerAt c = true := by
    have h' := h
    unfold sectionAt at h'
    rw [Bool.and_eq_true] at h'
    simpa [List.drop_zero] using h'.2
  have hne : c ≠ [] := markerAt_ne_nil hm
  unfold firstSection
  exact find?_range_zero (List.length_pos.mpr hne) h

theorem stripPreamble_marker_head {c : List Char} (h : sectionAt c 0 = true) :
    stripPreamble c = c := by
  unfold stripPreamble
  rw [firstSection_of_marker h]
  simp

theorem stripPreamble_idem_aux (c : List Char) :
    stripPreamble (stripPreamble c) = stripPreamble c := by
  cases heq : firstSection c with
  | none =>
    have h1 : stripPreamble c = c := by unfold stripPreamble; rw [heq]
    rw [h1]; exact h1
  | some p =>
    have hsec : sectionAt c p = true := List.find?_some heq
    by_cases hp : p > 0
    · have h1 : stripPreamble c = c.drop p := by
        unfold stripPreamble; rw [heq]; simp [hp]
      rw [h1]
      exact stripPreamble_marker_head (sectionAt_drop hsec)
    · have hp0 : p = 0 := by omega
      subst hp0
      have h1 : stripPreamble c = c := stripPreamble_marker_head hsec
      rw [h1]; exact h1

/-- C7: the preamble strip is idempotent: a text whose first characters
already match the section-start marker is left unchanged, and stripping
any already-stripped text a second time is a no-op. -/
theorem stripPreamble_idempotent :
    (∀ c : List Char, sectionAt c 0 = true → stripPreamble c = c) ∧
    (∀ c : List Char, stripPreamble (stripPreamble c) = stripPreamble c) :=
  ⟨fun _ h => stripPreamble_marker_head h, stripPreamble_idem_aux⟩

/-- Witness for C7 at a concrete already-stripped text. -/
theorem stripPreamble_idempotent_witness :
    stripPreamble (s "### A\nrest") = s "### A\nrest" :=
  stripPreamble_idempotent.1 (s "### A\nrest") (by decide)

-- ============================================
-- C10: THE RUMOR PHRASE IS MASKED BY THE CONFIRMED TEST
-- ============================================

/-- C10: the confirmed marker is a substring of the rumor phrase, so a
window containing the rumor phrase and no other marker gets +3 clamped
at 100 followed by -3 clamped at 0, leaving every prior score in
[0,97] unchanged instead of lowered. -/
theorem rumor_marker_masked (w : List Char) (sc : Int)
    (h1 : containsSub w (s "לא מאומת") = true)
    (h2 : containsSub w (s "✅") = false)
    (h3 : containsSub w (s "אמינות גבוהה") = false)
    (h4 : containsSub w (s "❓") = false)
    (h5 : containsSub w (s "אמינות נמוכה") = false)
    (h6 : containsSub w (s "שמועה") = false)
    (h7 : containsSub w (s "⚠️") = false)
    (h8 : containsSub w (s "מקור בודד") = false)
    (h9 : containsSub w (s "לא מאושר") = false)
    (hlo : 0 ≤ sc) (hhi : sc ≤ 97) :
    containsSub w (s "מאומת") = true ∧ adjustScore w sc = sc := by
  have hm : containsSub w (s "מאומת") = true := by
    have hsplit : s "לא מאומת" = s "לא " ++ s "מאומת" := by decide
    exact containsSub_append_right w (s "לא ") (s "מאומת") (hsplit ▸ h1)
  refine ⟨hm, ?_⟩
  unfold adjustScore
  simp only [confirmedMarkers, rumorMarkers, singleSourceMarkers,
    List.any_cons, List.any_nil, h1, h2, h3, h4, h5, h6, h7, h8, h9, hm,
    Bool.or_false, Bool.false_or, Bool.or_true, Bool.true_or,
    Bool.false_eq_true, if_true, if_false]
  rw [min_eq_right (by omega : (sc + 3 : Int) ≤ 100)]
  rw [max_eq_right (by omega : (0 : Int) ≤ sc + 3 - 3)]
  omega

/-- Witness for C10 at a concrete window and score. -/
theorem rumor_marker_masked_witness :
    containsSub (s "מקור: לא מאומת כעת") (s "מאומת") = true ∧
    adjustScore (s "מקור: לא מאומת כעת") 50 = 50 :=
  rumor_marker_masked (s "מקור: לא מאומת כעת") 50 (by decide) (by decide)
    (by decide) (by decide) (by decide) (by decide) (by decide) (by decide)
    (by decide) (by decide) (by decide)

-- ============================================
-- SOURCES-MAPPING LEMMAS
-- ============================================

theorem getSrc_setKey (m : Sources) (k j : String) (v : Profile) :
    getSrc (setKey m k v) j = if k = j then some v else getSrc m j := by
  induction m with
  | nil =>
    by_cases hj : k = j <;> simp [setKey, getSrc, hj]
  | cons kv r ih =>
    obtain ⟨k', v'⟩ := kv
    by_cases hk : k' = k
    · subst hk
      by_cases hj : k' = j <;> simp [setKey, getSrc, hj]
    · by_cases hj : k' = j
      · subst hj
        have hkj : ¬(k = k') := fun h => hk h.symm
        simp [setKey, getSrc, hk, hkj]
      · simp [setKey, getSrc, hk, hj, ih]

theorem mem_setKey {m : Sources} {k : String} {v : Profile} :
    ∀ q ∈ setKey m k v, q = (k, v) ∨ q ∈ m := by
  induction m with
  | nil =>
    intro q hq
    simp [setKey] at hq
    exact Or.inl hq
  | cons kv r ih =>
    obtain ⟨k', v'⟩ := kv
    intro q hq
    by_cases hk : k' = k
    · subst hk
      simp [setKey] at hq
      rcases hq with rfl | hq
      · exact Or.inl rfl
      · exact Or.inr (List.mem_cons_of_mem _ hq)
    · simp only [setKey, if_neg hk, List.mem_cons] at hq
      rcases hq with rfl | hq
      · exact Or.inr (List.mem_cons_self _ _)
      · rcases ih q hq with h | h
        · exact Or.inl h
        · exact Or.inr (List.mem_cons_of_mem _ h)

theorem getSrc_mem {m : Sources} {k : String} {p : Profile}
    (h : getSrc m k = some p) : (k, p) ∈ m := by
  induction m with
  | nil => simp [getSrc] at h
  | cons kv r ih =>
    obtain ⟨k', v'⟩ := kv
    by_cases hk : k' = k
    · subst hk
      simp only [getSrc, if_true, eq_self_iff_true, Option.some.injEq] at h
      subst h
      exact List.mem_cons_self _ _
    · simp only [getSrc, if_neg hk] at h
      exact List.mem_cons_of_mem _ (ih h)

theorem setKey_inv {m : Sources} (h : ScoreInv m) {k : String} {v : Profile}
    (hv : 0 ≤ v.score ∧ v.score ≤ 100) : ScoreInv (setKey m k v) := by
  intro q hq
  rcases mem_setKey q hq with rfl | hq'
  · exact hv
  · exact h q hq'

theorem getProfD_range {m : Sources} (h : ScoreInv m) (k : String) :
    0 ≤ (getProfD m k).score ∧ (getProfD m k).score ≤ 100 := by
  unfold getProfD
  cases heq : getSrc m k with
  | none => exact ⟨by decide, by decide⟩
  | some p => exact h _ (getSrc_mem heq)

theorem clamp_up_range {x : Int} (hx : 0 ≤ x) (hx' : x ≤ 100)
    (b : Prop) [Decidable b] :
    0 ≤ (if b then min 100 (x + 3) else x) ∧
    (if b then min 100 (x + 3) else x) ≤ 100 := by
  split_ifs
  · exact ⟨le_min (by omega) (by omega), min_le_left _ _⟩
  · exact ⟨hx, hx'⟩

theorem clamp_down_range {x : Int} (hx : 0 ≤ x) (hx' : x ≤ 100)
    {d : Int} (hd : 0 ≤ d) (b : Prop) [Decidable b] :
    0 ≤ (if b then max 0 (x - d) else x) ∧
    (if b then max 0 (x - d) else x) ≤ 100 := by
  split_ifs
  · exact ⟨le_max_left _ _, max_le (by omega) (by omega)⟩
  · exact ⟨hx, hx'⟩

theorem adjustScore_range (w : List Char) {sc : Int} (hlo : 0 ≤ sc)
    (hhi : sc ≤ 100) : 0 ≤ adjustScore w sc ∧ adjustScore w sc ≤ 100 := by
  unfold adjustScore
  have h1 := clamp_up_range hlo hhi
    (confirmedMarkers.any (fun m => containsSub w m) = true)
  have h2 := clamp_down_range h1.1 h1.2 (by norm_num : (0 : Int) ≤ 3)
    (rumorMarkers.any (fun m => containsSub w m) = true)
  have h3 := clamp_down_range h2.1 h2.2 (by norm_num : (0 : Int) ≤ 1)
    (singleSourceMarkers.any (fun m => containsSub w m) = true)
  exact h3

theorem ensureProfile_inv {m : Sources} (h : ScoreInv m) (name : String) :
    ScoreInv (ensureProfile m name) := by
  unfold ensureProfile
  split_ifs
  · exact h
  · exact setKey_inv h (by norm_num)

theorem bumpMention_inv {m : Sources} (h : ScoreInv m) (name : String) :
    ScoreInv (bumpMention m name) := by
  unfold bumpMention
  exact setKey_inv h (getProfD_range h name)

theorem applyMarkers_inv {m : Sources} (h : ScoreInv m)
    (content p : List Char) (io : Option Nat) (name : String) :
    ScoreInv (applyMarkers content p io m name) := by
  cases io with
  | none => exact h
  | some idx =>
    simp only [applyMarkers]
    exact setKey_inv h
      (adjustScore_range _ (getProfD_range h name).1 (getProfD_range h name).2)

theorem processSource_inv {content cl : List Char} {m : Sources}
    {name : String} (h : ScoreInv m) :
    ∀ ps, ScoreInv (processSource content cl m name ps) := by
  intro ps
  induction ps with
  | nil => exact h
  | cons p rest ih =>
    simp only [processSource]
    split_ifs with hc
    · exact applyMarkers_inv
        (bumpMention_inv (ensureProfile_inv h name) name) content p _ name
    · exact ih

theorem update_sources_inv {content : List Char} {m : Sources}
    (h : ScoreInv m) : ScoreInv (update_sources content m) := by
  unfold update_sources
  have hgen : ∀ (L : List (String × List (List Char))) (m0 : Sources),
      ScoreInv m0 →
      ScoreInv (L.foldl (fun acc np =>
        processSource content (pyLower content) acc np.1 np.2) m0) := by
    intro L
    induction L with
    | nil => intro m0 h0; exact h0
    | cons e rest ih =>
      intro m0 h0
      rw [List.foldl_cons]
      exact ih _ (processSource_inv h0 _)
  exact hgen SOURCE_PATTERNS m h

/-- C1: over any sequence of reliability updates with arbitrary
content, every stored profile's score remains in [0,100]: each
confirmed-tier increment is clamped at 100 and each rumor-tier and
single-source-tier decrement is clamped at 0. -/
theorem update_sources_score_range (contents : List (List Char))
    (m : Sources) (h : ScoreInv m) :
    ScoreInv (contents.foldl (fun acc c => update_sources c acc) m) := by
  induction contents generalizing m with
  | nil => exact h
  | cons c rest ih =>
    rw [List.foldl_cons]
    exact ih _ (update_sources_inv h)

/-- Witness for C1: a concrete profile map sent through two concrete
update cycles with extreme marker content. -/
theorem update_sources_score_range_witness :
    ScoreInv ([s "BBC ✅ מאומת", s "CNN ❓ שמועה"].foldl
      (fun acc c => update_sources c acc) [("Reuters", ⟨97, 4⟩)]) :=
  update_sources_score_range [s "BBC ✅ מאומת", s "CNN ❓ שמועה"]
    [("Reuters", ⟨97, 4⟩)] (by unfold ScoreInv; decide)

-- ============================================
-- MENTION-COUNTER LEMMAS
-- ============================================

theorem getProfD_mentions (m : Sources) (name : String) :
    (getProfD m name).mentions = mentionsOf m name := by
  unfold getProfD mentionsOf
  cases heq : getSrc m name <;> simp [heq]

theorem getSrc_ensureProfile_self (m : Sources) (name : String) :
    getSrc (ensureProfile m name) name = some (getProfD m name) := by
  unfold ensureProfile getProfD
  cases heq : getSrc m name with
  | some p => simp [heq]
  | none => simp [heq, getSrc_setKey]

theorem mentionsOf_ensureProfile (m : Sources) (name : String) :
    mentionsOf (ensureProfile m name) name = mentionsOf m name := by
  simp only [mentionsOf, getSrc_ensureProfile_self]
  exact getProfD_mentions m name

theorem mentionsOf_bumpMention (m : Sources) (name : String) :
    mentionsOf (bumpMention m name) name = (getProfD m name).mentions + 1 := by
  unfold mentionsOf bumpMention
  simp [getSrc_setKey]

theorem mentionsOf_applyMarkers (content p : List Char) (io : Option Nat)
    (m : Sources) (name : String) :
    mentionsOf (applyMarkers content p io m name) name = mentionsOf m name := by
  cases io with
  | none => rfl
  | some idx =>
    simp only [applyMarkers, mentionsOf, getSrc_setKey, eq_self_iff_true,
      if_true]
    exact getProfD_mentions m name

theorem getSrc_ensureProfile_other {k name : String} (hk : k ≠ name)
    (m : Sources) : getSrc (ensureProfile m name) k = getSrc m k := by
  unfold ensureProfile
  split_ifs
  · rfl
  · rw [getSrc_setKey, if_neg (Ne.symm hk)]

theorem getSrc_bumpMention_other {k name : String} (hk : k ≠ name)
    (m : Sources) : getSrc (bumpMention m name) k = getSrc m k := by
  unfold bumpMention
  rw [getSrc_setKey, if_neg (Ne.symm hk)]

theorem getSrc_applyMarkers_other {k name : String} (hk : k ≠ name)
    (content p : List Char) (io : Option Nat) (m : Sources) :
    getSrc (applyMarkers content p io m name) k = getSrc m k := by
  cases io with
  | none => rfl
  | some idx =>
    simp only [applyMarkers]
    rw [getSrc_setKey, if_neg (Ne.symm hk)]

theorem getSrc_processSource_other {k name : String} (hk : k ≠ name)
    (content cl : List Char) (m : Sources) (ps : List (List Char)) :
    getSrc (processSource content cl m name ps) k = getSrc m k := by
  induction ps with
  | nil => rfl
  | cons p rest ih =>
    simp only [processSource]
    split_ifs with hc
    · rw [getSrc_applyMarkers_other hk, getSrc_bumpMention_other hk,
        getSrc_ensureProfile_other hk]
    · exact ih

theorem mentionsOf_processSource (content cl : List Char) (m : Sources)
    (name : String) (ps : List (List Char)) :
    mentionsOf (processSource content cl m name ps) name = mentionsOf m name ∨
    mentionsOf (processSource content cl m name ps) name =
      mentionsOf m name + 1 := by
  induction ps with
  | nil => exact Or.inl rfl
  | cons p rest ih =>
    simp only [processSource]
    split_ifs with hc
    · right
      rw [mentionsOf_applyMarkers, mentionsOf_bumpMention, getProfD_mentions,
        mentionsOf_ensureProfile]
    · exact ih

theorem getSrc_foldl_notmem (content cl : List Char) (k : String) :
    ∀ (L : List (String × List (List Char))) (m : Sources),
      (∀ e ∈ L, e.1 ≠ k) →
      getSrc (L.foldl (fun acc np =>
        processSource content cl acc np.1 np.2) m) k = getSrc m k := by
  intro L
  induction L with
  | nil => intro m _; rfl
  | cons e rest ih =>
    intro m hall
    rw [List.foldl_cons,
      ih _ (fun e' he' => hall e' (List.mem_cons_of_mem _ he')),
      getSrc_processSource_other
        (Ne.symm (hall e (List.mem_cons_self _ _)))]

theorem mentionsOf_foldl (content cl : List Char) (name : String) :
    ∀ (L : List (String × List (List Char))) (m : Sources),
      (L.map Prod.fst).Nodup →
      (mentionsOf (L.foldl (fun acc np =>
          processSource content cl acc np.1 np.2) m) name = mentionsOf m name ∨
       mentionsOf (L.foldl (fun acc np =>
          processSource content cl acc np.1 np.2) m) name =
         mentionsOf m name + 1) := by
  intro L
  induction L with
  | nil => intro m _; exact Or.inl rfl
  | cons e rest ih =>
    intro m hnd
    rw [List.map_cons, List.nodup_cons] at hnd
    rw [List.foldl_cons]
    by_cases hn : e.1 = name
    · subst hn
      have hrest : ∀ e' ∈ rest, e'.1 ≠ e.1 := by
        intro e' he' h
        exact hnd.1 (h ▸ List.mem_map_of_mem Prod.fst he')
      have hkeep := getSrc_foldl_notmem content cl e.1 rest
        (processSource content cl m e.1 e.2) hrest
      have hsame : mentionsOf (rest.foldl (fun acc np =>
          processSource content cl acc np.1 np.2)
          (processSource content cl m e.1 e.2)) e.1 =
          mentionsOf (processSource content cl m e.1 e.2) e.1 := by
        unfold mentionsOf
        rw [hkeep]
      rw [hsame]
      exact mentionsOf_processSource content cl m e.1 e.2
    · have hstep : getSrc (processSource content cl m e.1 e.2) name =
          getSrc m name :=
        getSrc_processSource_other (fun h => hn h.symm) content cl m e.2
      have hstep' : mentionsOf (processSource content cl m e.1 e.2) name =
          mentionsOf m name := by
        unfold mentionsOf
        rw [hstep]
      rcases ih (processSource content cl m e.1 e.2) hnd.2 with h | h
      · exact Or.inl (by rw [h, hstep'])
      · exact Or.inr (by rw [h, hstep'])

/-- C2: in one call to `update_sources` a source's mention counter
either stays unchanged (no alias matched) or rises by exactly 1,
regardless of how many aliases or occurrences appear in the content;
in particular it never rises by more than 1 and never decreases. -/
theorem update_sources_mentions (content : List Char) (m : Sources)
    (name : String) :
    mentionsOf (update_sources content m) name = mentionsOf m name ∨
    mentionsOf (update_sources content m) name = mentionsOf m name + 1 := by
  unfold update_sources
  exact mentionsOf_foldl content (pyLower content) name SOURCE_PATTERNS m
    (by decide)

-- ============================================
-- HISTORY RETENTION THEOREMS
-- ============================================

/-- Counterexample to C3 as stated: with 4 pre-retention records
(more than 3 candidates), the two retained non-newest records are the
ones at pre-retention positions 1 and 2 — adjacent. Here
`step = max(1, 3 // 2) = 1`, so `rest[0]` and `rest[1]` are kept. -/
theorem retainHistory_adjacent_counterexample :
    (0 :: [1, 2, 3]).length > 3 ∧ retainHistory 0 [1, 2, 3] = [0, 1, 2] := by
  decide

/-- C3 amended: the retention step always keeps at most 3 records, and
whenever more than 4 candidate records existed (so at least 4 older
records), the second retained older record sits at least 2 positions
after the first one in the pre-retention order (hence the two retained
non-newest records are never adjacent). -/
theorem retainHistory_spec {α : Type} (scan : α) (history : List α) :
    (retainHistory scan history).length ≤ 3 ∧
    (4 ≤ history.length →
      ∃ i, 2 ≤ i ∧ i < history.length ∧
        retainHistory scan history =
          [scan, history.getD 0 scan, history.getD i scan]) := by
  constructor
  · simp only [retainHistory]
    split_ifs with h
    · simp
    · simp only [List.length_cons] at h ⊢
      omega
  · intro h4
    refine ⟨history.length / 2, by omega, by omega, ?_⟩
    simp only [retainHistory]
    rw [if_pos (by simp only [List.length_cons]; omega)]
    have hmax : max 1 (history.length / 2) = history.length / 2 :=
      max_eq_right (by omega)
    have hmin : min (history.length / 2) (history.length - 1) =
        history.length / 2 :=
      min_eq_left (by omega)
    rw [hmax, hmin]

/-- Witness for the amended C3 at the smallest covered size. -/
theorem retainHistory_spec_witness :
    ∃ i, 2 ≤ i ∧ i < [1, 2, 3, 4].length ∧
      retainHistory 0 [1, 2, 3, 4] =
        [0, [1, 2, 3, 4].getD 0 0, [1, 2, 3, 4].getD i 0] :=
  (retainHistory_spec 0 [1, 2, 3, 4]).2 (by decide)

-- ============================================
-- C4: THE REUTERS EXAMPLE
-- ============================================

/-- C4: content containing the Reuters alias next to the confirmed
markers, starting from an empty mapping, yields exactly the new
profile `{score: 53, mentions: 1}` (base 50 + confirmed delta 3; the
rumor and single-source tiers do not fire). -/
theorem update_sources_reuters_example :
    update_sources (s "לפי Reuters ✅ מאומת...") [] =
      [("Reuters", ⟨53, 1⟩)] := by
  decide

-- ============================================
-- C5: EMPTY GENERATION RESULT IS FATAL, NO PARTIAL WRITES
-- ============================================

/-- C5: when the generation reply carries no non-empty text, the cycle
exits with code 1: no ScanRecord is produced and `latest`, `history`
and `sources` are exactly as loaded; only the early ad-hoc user-intel
append (performed before generation) survives. -/
theorem run_scan_empty_content (apiKey : List Char)
    (extraIntel : Option (List Char)) (intelTime scanTime : List Char)
    (ts : Int) (blocks : List RespBlock) (store : Store)
    (hkey : pyStrip apiKey ≠ [])
    (hempty : extractContent blocks = []) :
    run_scan apiKey extraIntel intelTime scanTime ts blocks store =
      (Except.error 1,
        { store with
          user_intel := match extraIntel with
            | some t => store.user_intel ++ [mkIntel t intelTime]
            | none => store.user_intel }) := by
  simp only [run_scan]
  rw [if_neg hkey, hempty, if_pos rfl]
  cases extraIntel with
  | none => rfl
  | some t => rfl

/-- Witness for C5: a concrete empty-text reply with ad-hoc intel. -/
theorem run_scan_empty_content_witness :
    run_scan (s "key") (some (s "tip")) (s "t1") (s "t2") 1700000000
      [RespBlock.other]
      { latest := none, history := [], sources := [], user_intel := [],
        feedback := [] } =
      (Except.error 1,
        { latest := none, history := [], sources := [],
          user_intel := [] ++ [mkIntel (s "tip") (s "t1")],
          feedback := [] }) :=
  run_scan_empty_content (s "key") (some (s "tip")) (s "t1") (s "t2")
    1700000000 [RespBlock.other]
    { latest := none, history := [], sources := [], user_intel := [],
      feedback := [] } (by decide) (by decide)

-- ============================================
-- C6: OPTIONAL CONTEXT BLOCKS
-- ============================================

theorem prev_context_eq_nil (history : List ScanRecord) :
    prev_context history = [] ↔ history = [] := by
  cases history with
  | nil => simp [prev_context]
  | cons r h =>
    have hne : s "--- סקירה קודמת (" ≠ [] := by decide
    simp [prev_context, List.append_eq_nil, hne]

theorem intel_block_eq_nil (ui : List IntelItem) :
    intel_block ui = [] ↔ ui = [] := by
  cases ui with
  | nil => simp [intel_block]
  | cons x xs =>
    have hne :
        s "\n\n## מידע ממקור ישיר (עדיפות עליונה - המשתמש הזין את זה):\n" ≠
          [] := by decide
    simp [intel_block, List.append_eq_nil, hne]

theorem fb_block_eq_nil (fb : List FeedbackItem) :
    fb_block fb = [] ↔ fb = [] := by
  cases fb with
  | nil => simp [fb_block]
  | cons x xs =>
    have hne : s "\n\n## משוב מהמשתמש - למד מזה:\n" ≠ [] := by decide
    simp [fb_block, List.append_eq_nil, hne]

theorem src_block_eq_nil (sources : Sources) :
    src_block sources = [] ↔ sources = [] := by
  cases sources with
  | nil => simp [src_block]
  | cons x xs =>
    have hne : s "\n\n## היסטוריית אמינות מקורות:\n" ≠ [] := by decide
    simp [src_block, List.append_eq_nil, hne]

/-- C6: each of the four context blocks is empty exactly when its
source collection is empty, and for an empty history the composed
prompt is exactly the base document — the prior-output block and its
trailing appendix header are entirely absent; for a non-empty history
the appendix is appended after the template. -/
theorem build_system_prompt_blocks (t : List Char)
    (history : List ScanRecord) (sources : Sources) (ui : List IntelItem)
    (fb : List FeedbackItem) :
    build_system_prompt t [] sources ui fb = base_prompt t sources ui fb ∧
    (prev_context history = [] ↔ history = []) ∧
    (intel_block ui = [] ↔ ui = []) ∧
    (fb_block fb = [] ↔ fb = []) ∧
    (src_block sources = [] ↔ sources = []) ∧
    (history ≠ [] →
      build_system_prompt t history sources ui fb =
        base_prompt t sources ui fb ++
        s "\n## סקירות קודמות (להקשר והשוואה):\n" ++
        prev_context history) := by
  refine ⟨?_, prev_context_eq_nil history, intel_block_eq_nil ui,
    fb_block_eq_nil fb, src_block_eq_nil sources, ?_⟩
  · simp [build_system_prompt, prev_context]
  · intro hne
    have hpc : prev_context history ≠ [] :=
      fun h => hne ((prev_context_eq_nil history).mp h)
    simp only [build_system_prompt]
    rw [if_neg hpc]

/-- Witness for C6 with a concrete non-empty history. -/
theorem build_system_prompt_blocks_witness :
    build_system_prompt (s "t") [mkScan 1 (s "tm") (s "body")] [] [] [] =
      base_prompt (s "t") [] [] [] ++
      s "\n## סקירות קודמות (להקשר והשוואה):\n" ++
      prev_context [mkScan 1 (s "tm") (s "body")] :=
  (build_system_prompt_blocks (s "t") [mkScan 1 (s "tm") (s "body")]
    [] [] []).2.2.2.2.2 (by simp)

-- ============================================
-- C8: SUMMARY IS A PURE FUNCTION OF CONTENT
-- ============================================

/-- C8: the summary of a scan record is computed purely from its
content by `mkSummary` (150-code-point prefix, structural markers
removed, newlines collapsed, then stripped); records sharing content
share the summary whatever their other fields. -/
theorem summary_pure (ts1 ts2 : Int) (t1 t2 c : List Char) :
    (mkScan ts1 t1 c).summary = mkSummary c ∧
    (mkScan ts1 t1 c).summary = (mkScan ts2 t2 c).summary :=
  ⟨rfl, rfl⟩

-- ============================================
-- C9: SOURCE-RELIABILITY LISTING ORDER
-- ============================================

theorem insDesc_perm (a : String × Profile) (l : List (String × Profile)) :
    (insDesc a l).Perm (a :: l) := by
  induction l with
  | nil => exact List.Perm.refl _
  | cons b bs ih =>
    simp only [insDesc]
    split_ifs with h
    · exact (ih.cons b).trans (List.Perm.swap a b bs)
    · exact List.Perm.refl _

theorem sortSources_perm (l : List (String × Profile)) :
    (sortSources l).Perm l := by
  induction l with
  | nil => exact List.Perm.refl _
  | cons x xs ih => exact (insDesc_perm x (sortSources xs)).trans (ih.cons x)

theorem mem_insDesc {a q : String × Profile} {l : List (String × Profile)}
    (h : q ∈ insDesc a l) : q = a ∨ q ∈ l := by
  have := (insDesc_perm a l).mem_iff.mp h
  simpa using this

theorem insDesc_sorted {a : String × Profile} {l : List (String × Profile)}
    (h : l.Pairwise (fun x y => scoreKey y ≤ scoreKey x)) :
    (insDesc a l).Pairwise (fun x y => scoreKey y ≤ scoreKey x) := by
  induction l with
  | nil => simp [insDesc]
  | cons b bs ih =>
    rcases List.pairwise_cons.mp h with ⟨hb, hbs⟩
    simp only [insDesc]
    split_ifs with hlt
    · refine List.pairwise_cons.mpr ⟨?_, ih hbs⟩
      intro q hq
      rcases mem_insDesc hq with rfl | hq'
      · exact le_of_lt hlt
      · exact hb q hq'
    · refine List.pairwise_cons.mpr ⟨?_, h⟩
      intro q hq
      rcases List.mem_cons.mp hq with rfl | hq'
      · exact not_lt.mp hlt
      · exact le_trans (hb q hq') (not_lt.mp hlt)

theorem sortSources_sorted (l : List (String × Profile)) :
    (sortSources l).Pairwise (fun x y => scoreKey y ≤ scoreKey x) := by
  induction l with
  | nil => simp [sortSources]
  | cons x xs ih => exact insDesc_sorted ih

theorem filter_insDesc (c : Int) (a : String × Profile)
    (l : List (String × Profile)) :
    (insDesc a l).filter (fun p => scoreKey p == c) =
    (a :: l).filter (fun p => scoreKey p == c) := by
  induction l with
  | nil => rfl
  | cons b bs ih =>
    simp only [insDesc]
    split_ifs with hlt
    · by_cases ha : scoreKey a = c
      · have hb : ¬(scoreKey b = c) := by omega
        simp [List.filter_cons, ha, hb, ih]
      · simp [List.filter_cons, ha, ih]
    · rfl

theorem filter_sortSources (c : Int) (l : List (String × Profile)) :
    (sortSources l).filter (fun p => scoreKey p == c) =
    l.filter (fun p => scoreKey p == c) := by
  induction l with
  | nil => rfl
  | cons x xs ih =>
    simp only [sortSources]
    rw [filter_insDesc]
    simp [List.filter_cons, ih]

/-- C9: the source-reliability block lists exactly the known profiles
(the rendered sequence is a permutation of the mapping), in
score-descending order, stable on ties (for every score value the
equal-score profiles keep their original mapping order), one `srcLine`
per profile showing score and mention count. -/
theorem src_block_spec (l : Sources) :
    (sortSources l).Perm l ∧
    (sortSources l).Pairwise (fun x y => scoreKey y ≤ scoreKey x) ∧
    (∀ c : Int, (sortSources l).filter (fun p => scoreKey p == c) =
      l.filter (fun p => scoreKey p == c)) ∧
    (l ≠ [] →
      src_block l = s "\n\n## היסטוריית אמינות מקורות:\n" ++
        ((sortSources l).map (fun kp => srcLine kp.1 kp.2)).flatten) := by
  refine ⟨sortSources_perm l, sortSources_sorted l,
    fun c => filter_sortSources c l, ?_⟩
  intro hne
  cases l with
  | nil => exact absurd rfl hne
  | cons x xs => rfl

/-- Witness for C9 at a concrete two-profile mapping. -/
theorem src_block_spec_witness :
    src_block [("A", ⟨60, 1⟩), ("B", ⟨70, 2⟩)] =
      s "\n\n## היסטוריית אמינות מקורות:\n" ++
      ((sortSources [("A", ⟨60, 1⟩), ("B", ⟨70, 2⟩)]).map
        (fun kp => srcLine kp.1 kp.2)).flatten :=
  (src_block_spec [("A", ⟨60, 1⟩), ("B", ⟨70, 2⟩)]).2.2.2 (by simp)

end IranMonitor
